import Mathlib

/-!
Verification of the `minio_spark` data-lake ingestion core.

The definitions below are a shallow embedding of `src/minio_spark/datalake.py`
(class `MinIOSpark`): the object store is an explicit `Storage` state, the
Spark tabular engine is modelled per the spec's collaborator interface, and
every collaborator invocation is recorded in an event log so that
instrumentation-style properties (which collaborators were called, in which
order) can be stated and proved.
-/

/-! ## Python `os.path.splitext` (posixpath), used by the orchestrator
to derive canonical artifact keys and view names. -/

/-- Index of the last occurrence of `c` in `cs`, or `-1` when absent
(the behaviour of Python's `str.rfind`). -/
def rfind : List Char → Char → Int
  | [], _ => -1
  | x :: xs, c =>
    let r := rfind xs c
    if 0 ≤ r then r + 1
    else if x = c then 0 else -1

/-- Length of the root part returned by `posixpath.splitext`: the whole
string unless the last `.` lies after the last `/` and some character
strictly between them is not a dot (leading dots of the basename never
start an extension). -/
def splitextRootLen (cs : List Char) : Nat :=
  let sepIndex := rfind cs '/'
  let dotIndex := rfind cs '.'
  if sepIndex < dotIndex then
    let start := (sepIndex + 1).toNat
    let stop := dotIndex.toNat
    if (List.range (stop - start)).any (fun j => cs.getD (start + j) ' ' != '.') then stop
    else cs.length
  else cs.length

/-- First component of Python's `os.path.splitext`. -/
def splitextFst (s : String) : String := String.mk (s.data.take (splitextRootLen s.data))

/-- The canonical Parquet artifact key derived by `ingest_file_to_datalake`
(datalake.py line 250): the source key with its extension replaced by
`.parquet`. -/
def parquet_object_name (p : String) : String := splitextFst p ++ ".parquet"

/-- Python's `str.endswith`, as a suffix test on the character list. -/
def strEndsWith (s t : String) : Bool := List.isSuffixOf t.data s.data

/-- Python's `str.startswith`, as a prefix test on the character list. -/
def strStartsWith (s t : String) : Bool := List.isPrefixOf t.data s.data

/-- Split a character list at every occurrence of the character `c`
(the splitting used by the modelled CSV parse). -/
def splitOnCharAux (c : Char) : List Char → List Char → List (List Char)
  | [], acc => [acc.reverse]
  | x :: xs, acc =>
    if x = c then acc.reverse :: splitOnCharAux c xs []
    else splitOnCharAux c xs (x :: acc)

/-- Split a character list on a character. -/
def splitOnChar (c : Char) (cs : List Char) : List (List Char) := splitOnCharAux c cs []

/-! ## Data model: object store state, payloads, tables. -/

/-- Rows of a Spark DataFrame, each row a list of string fields. -/
abbrev Table := List (List String)

/-- Contents of a stored object. Raw text bytes, a ZIP container with named
entries, or a persisted Parquet table. -/
inductive Payload where
  | raw (data : String)
  | zipArchive (entries : List (String × String))
  | parquet (tbl : Table)
deriving Repr, DecidableEq

/-- Modelled from the spec: the object-store collaborator state (spec section 6;
the repository's `minio_spark/bucket.py`, `minio_spark/object.py` and the
`put_object`/`list_objects` client methods are not under `src/`). Buckets and
a keyed object map. -/
structure Storage where
  buckets : List String
  objects : List ((String × String) × Payload)
deriving Repr, DecidableEq

/-- Modelled from the spec: object lookup by (bucket, key). -/
def Storage.lookupObject (st : Storage) (b k : String) : Option Payload :=
  (st.objects.find? (fun e => e.1 == (b, k))).map (fun e => e.2)

/-- Modelled from the spec: `put_object` replaces the object at (bucket, key). -/
def Storage.putObject (st : Storage) (b k : String) (p : Payload) : Storage :=
  { st with objects := ((b, k), p) :: st.objects.filter (fun e => e.1 != (b, k)) }

/-- Modelled from the spec: `bucket_exists`. -/
def Storage.bucketExists (st : Storage) (b : String) : Bool := st.buckets.contains b

/-- Modelled from the spec: `make_bucket`, idempotent create-if-absent. -/
def Storage.makeBucket (st : Storage) (b : String) : Storage :=
  if st.bucketExists b then st else { st with buckets := b :: st.buckets }

/-- Modelled from the spec: object existence check. -/
def Storage.objectExists (st : Storage) (b k : String) : Bool :=
  (st.lookupObject b k).isSome

/-- Modelled from the spec: `list_objects(bucket, prefix)` lists the keys in
the bucket that start with the given string. -/
def Storage.listObjects (st : Storage) (b pfx : String) : List String :=
  (st.objects.filter (fun e => e.1.1 == b && strStartsWith e.1.2 pfx)).map (fun e => e.1.2)

/-- A `MinioObject` reference: (bucket, key), as in `minio_spark/object.py`. -/
structure MinioObject where
  bucket_name : String
  name : String
deriving Repr, DecidableEq

/-- Full world: object store plus the Spark session's registered temp views. -/
structure World where
  storage : Storage
  views : List (String × Table)
deriving Repr, DecidableEq

/-- Error kinds of the collaborators (spec section 7). -/
inductive Err where
  | storageReadError (b k : String)
  | archiveUnreadable (b k : String)
  | engineLoadError (path : String)
deriving Repr, DecidableEq

/-- A read request handed to the tabular engine by `read_csv_to_dataframe`:
the declared format, the option pairs in the order they were applied to the
reader, and the logical path. -/
structure ReadRequest where
  format : String
  opts : List (String × String)
  path : String
deriving Repr, DecidableEq

/-- Events recording each collaborator invocation made by the code. -/
inductive Ev where
  | bucketExistsCheck (b : String)
  | makeBucket (b : String)
  | objectExistsCheck (b k : String)
  | getObject (b k : String)
  | putObject (b k : String)
  | readParquet (b k : String)
  | readCsv (req : ReadRequest)
  | writeParquet (b k : String)
  | extractZip (b k : String)
  | createView (n : String)
deriving Repr, DecidableEq

/-! ## Tabular engine collaborator (modelled from the spec, section 6). -/

/-- Effective value of a reader option after applying `opts` in order:
the last occurrence of the key wins (Spark reader semantics). -/
def effectiveOpt (opts : List (String × String)) (k : String) : Option String :=
  (opts.reverse.find? (fun e => e.1 == k)).map (fun e => e.2)

/-- The read request built by `read_csv_to_dataframe` (datalake.py lines
183-201): path `s3a://bucket/prefix`, defaults `header=true` and
`inferSchema=true` when no options are supplied, caller options applied in
order, and the delimiter option always applied last. -/
def read_csv_to_dataframe_req (bucket_name pfx delimiter format_source : String)
    (option_args : Option (List (String × String))) : ReadRequest :=
  let path := "s3a://" ++ bucket_name ++ "/" ++ pfx
  let args := match option_args with
    | none => [("header", "true"), ("inferSchema", "true")]
    | some a => a
  { format := format_source, opts := args ++ [("delimiter", delimiter)], path := path }

/-- Modelled from the spec: the engine's CSV parse of one file's text,
honouring the header and delimiter options. -/
def parseCsv (headerOn : Bool) (delim content : String) : Table :=
  let dc := delim.data.headD ','
  let ls := (splitOnChar (Char.ofNat 10) content.data).filter (fun l => !l.isEmpty)
  let body := if headerOn then ls.drop 1 else ls
  body.map (fun l => (splitOnChar dc l).map (fun w => String.mk w))

/-- Modelled from the spec: whether an object key is covered by an engine
load of logical path `s3a://bucket/pfx` (the key itself, or anything under
the directory `pfx/`). -/
def engineMatchKey (key pfx : String) : Bool :=
  key == pfx || strStartsWith key (pfx ++ "/")

/-- Modelled from the spec: the engine's CSV load over a storage location;
fails when no object matches the path, otherwise unions the parsed rows of
the matching raw objects. -/
def engineLoadCsv (st : Storage) (bucket pfx : String) (req : ReadRequest) :
    Except Err Table :=
  let files := st.objects.filter (fun e => e.1.1 == bucket && engineMatchKey e.1.2 pfx)
  if files.isEmpty then Except.error (Err.engineLoadError req.path)
  else
    let headerOn := effectiveOpt req.opts "header" == some "true"
    let delim := (effectiveOpt req.opts "delimiter").getD ","
    Except.ok (files.foldr (fun e acc =>
      (match e.2 with
       | Payload.raw data => parseCsv headerOn delim data
       | _ => []) ++ acc) [])

/-- Modelled from the spec: the engine's Parquet load of a single object
(`read_parquet_to_dataframe`, datalake.py lines 204-216); fails unless a
Parquet payload is stored at the key. -/
def engineReadParquet (st : Storage) (b k : String) : Except Err Table :=
  match st.lookupObject b k with
  | some (Payload.parquet t) => Except.ok t
  | _ => Except.error (Err.engineLoadError ("s3a://" ++ b ++ "/" ++ k))

/-! ## Archive expansion (datalake.py lines 94-138). -/

/-- The upload loop inside `extract_and_upload_zip` (lines 116-121): writes
each entry's bytes to `destPfx/entryName` in the archive's own bucket and
collects one `MinioObject` per entry. -/
def uploadEntries (st : Storage) (bucket dPfx : String) :
    List (String × String) → Storage × List Ev × List MinioObject
  | [] => (st, [], [])
  | (n, dta) :: rest =>
    let fp := dPfx ++ "/" ++ n
    let st1 := st.putObject bucket fp (Payload.raw dta)
    let out := uploadEntries st1 bucket dPfx rest
    (out.1, Ev.putObject bucket fp :: out.2.1, MinioObject.mk bucket fp :: out.2.2)

/-- `extract_and_upload_zip` (datalake.py lines 94-123): fetch the archive's
bytes, choose the destination key prefix (the bucket name when
`extract_to_bucket` is true, else the explicit destination object's key,
else the archive key with its extension stripped), and upload every entry. -/
def extract_and_upload_zip (st : Storage) (minio_object : MinioObject)
    (destination_object : Option MinioObject) (extract_to_bucket : Bool) :
    Storage × List Ev × Except Err (List MinioObject) :=
  let hdr := [Ev.extractZip minio_object.bucket_name minio_object.name,
              Ev.getObject minio_object.bucket_name minio_object.name]
  match st.lookupObject minio_object.bucket_name minio_object.name with
  | none => (st, hdr, Except.error (Err.storageReadError minio_object.bucket_name minio_object.name))
  | some (Payload.zipArchive entries) =>
    let destPfx :=
      if extract_to_bucket then minio_object.bucket_name
      else match destination_object with
        | some d => d.name
        | none => splitextFst minio_object.name
    let out := uploadEntries st minio_object.bucket_name destPfx entries
    (out.1, hdr ++ out.2.1, Except.ok out.2.2)
  | some _ => (st, hdr, Except.error (Err.archiveUnreadable minio_object.bucket_name minio_object.name))

/-- The loop of `extract_and_upload_zip_by_prefix` (lines 135-138): iterate
the listed keys, expanding those that end in `.zip`; there is no exception
handling, so an expansion failure stops the loop and propagates. -/
def extractZipsLoop (bucket_name : String) (extract_to_bucket : Bool) :
    List String → Storage → Storage × List Ev × Except Err Unit
  | [], st => (st, [], Except.ok ())
  | k :: ks, st =>
    if strEndsWith k ".zip" then
      let out := extract_and_upload_zip st (MinioObject.mk bucket_name k) none extract_to_bucket
      match out.2.2 with
      | Except.ok _ =>
        let rest := extractZipsLoop bucket_name extract_to_bucket ks out.1
        (rest.1, out.2.1 ++ rest.2.1, rest.2.2)
      | Except.error e => (out.1, out.2.1, Except.error e)
    else extractZipsLoop bucket_name extract_to_bucket ks st

/-- `extract_and_upload_zip_by_prefix` (datalake.py lines 125-138): list the
objects under the prefix and run the expansion loop. -/
def extract_and_upload_zip_by_prefix (st : Storage) (bucket_name pfx : String)
    (extract_to_bucket : Bool) : Storage × List Ev × Except Err Unit :=
  extractZipsLoop bucket_name extract_to_bucket (st.listObjects bucket_name pfx) st

/-! ## The ingestion orchestrator (datalake.py lines 232-287). -/

/-- The final step shared by both branches (lines 282-285):
`createOrReplaceTempView` registers the view, replacing any previous view
with the same name. -/
def publishView (w : World) (log : List Ev) (name : String) (df : Table) :
    World × List Ev × Except Err Table :=
  ({ w with views := (name, df) :: w.views.filter (fun v => v.1 != name) },
   log ++ [Ev.createView name], Except.ok df)

/-- Lines 276-280 of the miss branch: persist the DataFrame as the Parquet
artifact (overwrite), read it back, then publish the view. -/
def persistReloadPublish (w : World) (log : List Ev) (destBucket parquetName viewName : String)
    (df : Table) : World × List Ev × Except Err Table :=
  let st := w.storage.putObject destBucket parquetName (Payload.parquet df)
  let log1 := log ++ [Ev.writeParquet destBucket parquetName, Ev.readParquet destBucket parquetName]
  match engineReadParquet st destBucket parquetName with
  | Except.error e => ({ w with storage := st }, log1, Except.error e)
  | Except.ok df2 => publishView { w with storage := st } log1 viewName df2

/-- `ingest_file_to_datalake` (datalake.py lines 232-287): derive the
canonical Parquet key, ensure the destination bucket, load the cached
artifact if present; otherwise expand a `.zip` source (reading back from the
prefix obtained by stripping the archive's extension) or read a flat source
directly, persist to Parquet, reload, and finally register the temp view. -/
def ingest_file_to_datalake (w : World) (bucket_name pfx destination_bucket_name : String)
    (temp_view_name : Option String) (delimiter : String)
    (option_args : Option (List (String × String))) :
    World × List Ev × Except Err Table :=
  let parquetName := parquet_object_name pfx
  let st0 := w.storage
  let st1 := if st0.bucketExists destination_bucket_name then st0
             else st0.makeBucket destination_bucket_name
  let log0 := [Ev.bucketExistsCheck destination_bucket_name]
              ++ (if st0.bucketExists destination_bucket_name then []
                  else [Ev.makeBucket destination_bucket_name])
              ++ [Ev.objectExistsCheck destination_bucket_name parquetName]
  let viewName := (temp_view_name).getD (splitextFst pfx)
  if st1.objectExists destination_bucket_name parquetName then
    let log1 := log0 ++ [Ev.readParquet destination_bucket_name parquetName]
    match engineReadParquet st1 destination_bucket_name parquetName with
    | Except.error e => ({ w with storage := st1 }, log1, Except.error e)
    | Except.ok df => publishView { w with storage := st1 } log1 viewName df
  else
    if strEndsWith pfx ".zip" then
      let ex := extract_and_upload_zip st1 (MinioObject.mk bucket_name pfx) none true
      match ex.2.2 with
      | Except.error e => ({ w with storage := ex.1 }, log0 ++ ex.2.1, Except.error e)
      | Except.ok _ =>
        let folder := splitextFst pfx
        let req := read_csv_to_dataframe_req bucket_name folder delimiter "csv" option_args
        let log1 := log0 ++ ex.2.1 ++ [Ev.readCsv req]
        match engineLoadCsv ex.1 bucket_name folder req with
        | Except.error e => ({ w with storage := ex.1 }, log1, Except.error e)
        | Except.ok df =>
          persistReloadPublish { w with storage := ex.1 } log1 destination_bucket_name parquetName viewName df
    else
      let req := read_csv_to_dataframe_req bucket_name pfx delimiter "csv" option_args
      let log1 := log0 ++ [Ev.readCsv req]
      match engineLoadCsv st1 bucket_name pfx req with
      | Except.error e => ({ w with storage := st1 }, log1, Except.error e)
      | Except.ok df =>
        persistReloadPublish { w with storage := st1 } log1 destination_bucket_name parquetName viewName df

/-! ## Basic lemmas about the storage model. -/

theorem objects_makeBucket (st : Storage) (b : String) :
    (st.makeBucket b).objects = st.objects := by
  unfold Storage.makeBucket
  split <;> rfl

theorem lookupObject_makeBucket (st : Storage) (b b' k : String) :
    (st.makeBucket b).lookupObject b' k = st.lookupObject b' k := by
  unfold Storage.lookupObject
  rw [objects_makeBucket]

theorem lookupObject_putObject_self (st : Storage) (b k : String) (p : Payload) :
    (st.putObject b k p).lookupObject b k = some p := by
  simp [Storage.putObject, Storage.lookupObject]

theorem engineReadParquet_putObject (st : Storage) (b k : String) (t : Table) :
    engineReadParquet (st.putObject b k (Payload.parquet t)) b k = Except.ok t := by
  unfold engineReadParquet
  rw [lookupObject_putObject_self]

theorem createView_not_mem_uploadEntries (bucket dPfx : String) :
    ∀ (entries : List (String × String)) (st : Storage) (n : String),
      Ev.createView n ∉ (uploadEntries st bucket dPfx entries).2.1 := by
  intro entries
  induction entries with
  | nil => intro st n h; simp [uploadEntries] at h
  | cons hd tl ih =>
    obtain ⟨k, dta⟩ := hd
    intro st n h
    simp [uploadEntries] at h
    exact ih _ n h

theorem createView_not_mem_extractLog (st : Storage) (o : MinioObject)
    (dObj : Option MinioObject) (etb : Bool) (n : String) :
    Ev.createView n ∉ (extract_and_upload_zip st o dObj etb).2.1 := by
  unfold extract_and_upload_zip
  rcases hl : st.lookupObject o.bucket_name o.name with _ | pl
  · simp
  · rcases pl with d | entries | t
    · simp
    · simp [createView_not_mem_uploadEntries]
    · simp

theorem extractLog_head (st : Storage) (o : MinioObject) (dObj : Option MinioObject)
    (etb : Bool) :
    ∃ l, (extract_and_upload_zip st o dObj etb).2.1 =
      Ev.extractZip o.bucket_name o.name :: Ev.getObject o.bucket_name o.name :: l := by
  unfold extract_and_upload_zip
  rcases hl : st.lookupObject o.bucket_name o.name with _ | pl
  · exact ⟨[], rfl⟩
  · rcases pl with d | entries | t
    · exact ⟨[], rfl⟩
    · exact ⟨_, rfl⟩
    · exact ⟨[], rfl⟩

/-- Full description of the cache-hit path of the orchestrator: when a
Parquet payload is already stored at the derived canonical key, the call
only ensures the bucket, checks the cache, reads the artifact back and
publishes the view. -/
theorem ingest_cache_hit (w : World) (b p d : String) (tvn : Option String)
    (delim : String) (opts : Option (List (String × String))) (t : Table)
    (h : w.storage.lookupObject d (parquet_object_name p) = some (Payload.parquet t)) :
    ingest_file_to_datalake w b p d tvn delim opts =
      ({ storage := if w.storage.bucketExists d then w.storage else w.storage.makeBucket d,
         views := (tvn.getD (splitextFst p), t) ::
           w.views.filter (fun v => v.1 != tvn.getD (splitextFst p)) },
       [Ev.bucketExistsCheck d]
         ++ (if w.storage.bucketExists d then [] else [Ev.makeBucket d])
         ++ [Ev.objectExistsCheck d (parquet_object_name p),
             Ev.readParquet d (parquet_object_name p),
             Ev.createView (tvn.getD (splitextFst p))],
       Except.ok t) := by
  unfold ingest_file_to_datalake
  by_cases hb : w.storage.bucketExists d
  · simp [hb, Storage.objectExists, h, engineReadParquet, publishView]
  · simp [hb, Storage.objectExists, lookupObject_makeBucket, h, engineReadParquet, publishView]

/-- C1: Cache-hit idempotence — when the derived canonical Parquet artifact
already exists in the destination bucket, the orchestrator only loads that
artifact: the call returns its table, the collaborator log is exactly bucket
ensure, cache check, Parquet read and view registration, and no archive
extraction, source read, CSV load or Parquet persistence is invoked. -/
theorem claim1_cache_hit_idempotence (w : World) (b p d : String) (tvn : Option String)
    (delim : String) (opts : Option (List (String × String))) (t : Table)
    (h : w.storage.lookupObject d (parquet_object_name p) = some (Payload.parquet t)) :
    (ingest_file_to_datalake w b p d tvn delim opts).2.2 = Except.ok t ∧
    (ingest_file_to_datalake w b p d tvn delim opts).2.1 =
      [Ev.bucketExistsCheck d]
        ++ (if w.storage.bucketExists d then [] else [Ev.makeBucket d])
        ++ [Ev.objectExistsCheck d (parquet_object_name p),
            Ev.readParquet d (parquet_object_name p),
            Ev.createView (tvn.getD (splitextFst p))] ∧
    (∀ bk k, Ev.extractZip bk k ∉ (ingest_file_to_datalake w b p d tvn delim opts).2.1) ∧
    (∀ bk k, Ev.getObject bk k ∉ (ingest_file_to_datalake w b p d tvn delim opts).2.1) ∧
    (∀ r, Ev.readCsv r ∉ (ingest_file_to_datalake w b p d tvn delim opts).2.1) ∧
    (∀ bk k, Ev.writeParquet bk k ∉ (ingest_file_to_datalake w b p d tvn delim opts).2.1) ∧
    (∀ bk k, Ev.putObject bk k ∉ (ingest_file_to_datalake w b p d tvn delim opts).2.1) := by
  rw [ingest_cache_hit w b p d tvn delim opts t h]
  refine ⟨rfl, rfl, ?_, ?_, ?_, ?_, ?_⟩ <;>
    intros <;> by_cases hb : w.storage.bucketExists d <;> simp [hb]

/-- Concrete world for the C1 witness: the canonical artifact is cached. -/
def wHit : World :=
  World.mk (Storage.mk ["stage"] [(("stage", "sales.parquet"), Payload.parquet [["1", "2"]])]) []

theorem claim1_cache_hit_idempotence_witness :
    wHit.storage.lookupObject "stage" (parquet_object_name "sales.csv") =
      some (Payload.parquet [["1", "2"]]) ∧
    ((ingest_file_to_datalake wHit "raw" "sales.csv" "stage" none "," none).2.2 =
      Except.ok [["1", "2"]] ∧
    (ingest_file_to_datalake wHit "raw" "sales.csv" "stage" none "," none).2.1 =
      [Ev.bucketExistsCheck "stage"]
        ++ (if wHit.storage.bucketExists "stage" then [] else [Ev.makeBucket "stage"])
        ++ [Ev.objectExistsCheck "stage" (parquet_object_name "sales.csv"),
            Ev.readParquet "stage" (parquet_object_name "sales.csv"),
            Ev.createView ((none : Option String).getD (splitextFst "sales.csv"))] ∧
    (∀ bk k, Ev.extractZip bk k ∉
      (ingest_file_to_datalake wHit "raw" "sales.csv" "stage" none "," none).2.1) ∧
    (∀ bk k, Ev.getObject bk k ∉
      (ingest_file_to_datalake wHit "raw" "sales.csv" "stage" none "," none).2.1) ∧
    (∀ r, Ev.readCsv r ∉
      (ingest_file_to_datalake wHit "raw" "sales.csv" "stage" none "," none).2.1) ∧
    (∀ bk k, Ev.writeParquet bk k ∉
      (ingest_file_to_datalake wHit "raw" "sales.csv" "stage" none "," none).2.1) ∧
    (∀ bk k, Ev.putObject bk k ∉
      (ingest_file_to_datalake wHit "raw" "sales.csv" "stage" none "," none).2.1)) :=
  ⟨by rfl, claim1_cache_hit_idempotence wHit "raw" "sales.csv" "stage" none "," none
    [["1", "2"]] (by rfl)⟩

/-- C10: Cache-hit frame property — when the canonical artifact exists, the
source object is never read (the call succeeds with no hypothesis about the
source), no object is written, the only storage mutation is creating the
destination bucket if absent, and that creation is logged before the cache
check. -/
theorem claim10_cache_hit_frame (w : World) (b p d : String) (tvn : Option String)
    (delim : String) (opts : Option (List (String × String))) (t : Table)
    (h : w.storage.lookupObject d (parquet_object_name p) = some (Payload.parquet t)) :
    (ingest_file_to_datalake w b p d tvn delim opts).2.2 = Except.ok t ∧
    (ingest_file_to_datalake w b p d tvn delim opts).1.storage =
      (if w.storage.bucketExists d then w.storage else w.storage.makeBucket d) ∧
    (ingest_file_to_datalake w b p d tvn delim opts).1.storage.objects = w.storage.objects ∧
    (∀ bk k, Ev.getObject bk k ∉ (ingest_file_to_datalake w b p d tvn delim opts).2.1) ∧
    (∀ bk k, Ev.putObject bk k ∉ (ingest_file_to_datalake w b p d tvn delim opts).2.1) ∧
    (ingest_file_to_datalake w b p d tvn delim opts).2.1 =
      [Ev.bucketExistsCheck d]
        ++ (if w.storage.bucketExists d then [] else [Ev.makeBucket d])
        ++ [Ev.objectExistsCheck d (parquet_object_name p),
            Ev.readParquet d (parquet_object_name p),
            Ev.createView (tvn.getD (splitextFst p))] := by
  rw [ingest_cache_hit w b p d tvn delim opts t h]
  refine ⟨rfl, rfl, ?_, ?_, ?_, rfl⟩
  · by_cases hb : w.storage.bucketExists d <;> simp [hb, objects_makeBucket]
  · intros; by_cases hb : w.storage.bucketExists d <;> simp [hb]
  · intros; by_cases hb : w.storage.bucketExists d <;> simp [hb]

/-- Concrete world for the C10 witness: the artifact is cached, the source
object does not exist anywhere, and the destination bucket is absent. -/
def wHitNoSource : World :=
  World.mk (Storage.mk [] [(("stage", "data.parquet"), Payload.parquet [["7"]])]) []

theorem claim10_cache_hit_frame_witness :
    wHitNoSource.storage.lookupObject "stage" (parquet_object_name "data.csv") =
      some (Payload.parquet [["7"]]) ∧
    ((ingest_file_to_datalake wHitNoSource "raw" "data.csv" "stage" none "," none).2.2 =
      Except.ok [["7"]] ∧
    (ingest_file_to_datalake wHitNoSource "raw" "data.csv" "stage" none "," none).1.storage =
      (if wHitNoSource.storage.bucketExists "stage" then wHitNoSource.storage
       else wHitNoSource.storage.makeBucket "stage") ∧
    (ingest_file_to_datalake wHitNoSource "raw" "data.csv" "stage" none "," none).1.storage.objects =
      wHitNoSource.storage.objects ∧
    (∀ bk k, Ev.getObject bk k ∉
      (ingest_file_to_datalake wHitNoSource "raw" "data.csv" "stage" none "," none).2.1) ∧
    (∀ bk k, Ev.putObject bk k ∉
      (ingest_file_to_datalake wHitNoSource "raw" "data.csv" "stage" none "," none).2.1) ∧
    (ingest_file_to_datalake wHitNoSource "raw" "data.csv" "stage" none "," none).2.1 =
      [Ev.bucketExistsCheck "stage"]
        ++ (if wHitNoSource.storage.bucketExists "stage" then [] else [Ev.makeBucket "stage"])
        ++ [Ev.objectExistsCheck "stage" (parquet_object_name "data.csv"),
            Ev.readParquet "stage" (parquet_object_name "data.csv"),
            Ev.createView ((none : Option String).getD (splitextFst "data.csv"))]) :=
  ⟨by rfl, claim10_cache_hit_frame wHitNoSource "raw" "data.csv" "stage" none "," none
    [["7"]] (by rfl)⟩

theorem effectiveOpt_append_last (l : List (String × String)) (k v : String) :
    effectiveOpt (l ++ [(k, v)]) k = some v := by
  simp [effectiveOpt]

/-- C8: Loader option handling — `read_csv_to_dataframe` always addresses
the engine at `s3a://bucket/prefix`; with no caller options the reader gets
exactly the defaults `header=true` and `inferSchema=true` followed by the
delimiter; with caller options the delimiter option is applied after all of
them; and in every case the effective delimiter is the delimiter parameter,
even when the caller's dictionary contains a `delimiter` key. -/
theorem claim8_loader_options (bucket p delim fmt : String) :
    (∀ o, (read_csv_to_dataframe_req bucket p delim fmt o).path =
      "s3a://" ++ bucket ++ "/" ++ p) ∧
    (read_csv_to_dataframe_req bucket p delim fmt none).opts =
      [("header", "true"), ("inferSchema", "true"), ("delimiter", delim)] ∧
    effectiveOpt (read_csv_to_dataframe_req bucket p delim fmt none).opts "header" =
      some "true" ∧
    effectiveOpt (read_csv_to_dataframe_req bucket p delim fmt none).opts "inferSchema" =
      some "true" ∧
    (∀ l, (read_csv_to_dataframe_req bucket p delim fmt (some l)).opts =
      l ++ [("delimiter", delim)]) ∧
    (∀ o, effectiveOpt (read_csv_to_dataframe_req bucket p delim fmt o).opts "delimiter" =
      some delim) := by
  refine ⟨fun o => rfl, rfl, by simp [effectiveOpt, read_csv_to_dataframe_req],
    by simp [effectiveOpt, read_csv_to_dataframe_req], fun l => rfl, fun o => ?_⟩
  rcases o with _ | l <;> exact effectiveOpt_append_last _ _ _

/-! ## Lemmas about `rfind` and the canonical key derivation. -/

theorem rfind_of_not_mem {c : Char} : ∀ {xs : List Char}, c ∉ xs → rfind xs c = -1 := by
  intro xs
  induction xs with
  | nil => intro h; rfl
  | cons x xs ih =>
    intro h
    simp only [List.mem_cons, not_or] at h
    obtain ⟨hx, hxs⟩ := h
    simp only [rfind, ih hxs]
    rw [if_neg (by decide), if_neg (fun e => hx e.symm)]

theorem rfind_lt_length (c : Char) : ∀ xs : List Char, rfind xs c < (xs.length : Int) := by
  intro xs
  induction xs with
  | nil => simp [rfind]
  | cons x xs ih =>
    simp only [rfind, List.length_cons]
    split
    · push_cast
      omega
    · split <;> push_cast <;> omega

theorem rfind_ge_neg_one (c : Char) : ∀ xs : List Char, -1 ≤ rfind xs c := by
  intro xs
  induction xs with
  | nil => simp [rfind]
  | cons x xs ih =>
    simp only [rfind]
    split
    · omega
    · split <;> omega

theorem rfind_append_of_nonneg {c : Char} {ys : List Char} (h : 0 ≤ rfind ys c) :
    ∀ xs : List Char, rfind (xs ++ ys) c = xs.length + rfind ys c := by
  intro xs
  induction xs with
  | nil => simp
  | cons x xs ih =>
    simp only [List.cons_append, rfind, List.append_eq, ih, List.length_cons]
    rw [if_pos (by omega)]
    push_cast
    omega

theorem rfind_append_of_not_mem {c : Char} {ys : List Char} (h : c ∉ ys) :
    ∀ xs : List Char, rfind (xs ++ ys) c = rfind xs c := by
  intro xs
  induction xs with
  | nil => simp [rfind, rfind_of_not_mem h]
  | cons x xs ih =>
    simp only [List.cons_append, rfind, List.append_eq, ih]

/-- Key computation of the canonical-key derivation: on input of the form
`stem ++ "." ++ ext` with a dot-free, slash-free extension and a basename
that is not all dots, `splitext` keeps exactly the stem. -/
theorem splitextRootLen_append_ext (sl el : List Char) (hdot : '.' ∉ el) (hsl : '/' ∉ el)
    (i : Nat) (h1 : rfind sl '/' < (i : Int)) (h2 : i < sl.length)
    (h3 : sl.getD i ' ' ≠ '.') :
    splitextRootLen (sl ++ '.' :: el) = sl.length := by
  have hge := rfind_ge_neg_one '/' sl
  have hdotc : rfind ('.' :: el) '.' = 0 := by
    simp only [rfind, rfind_of_not_mem hdot]
    norm_num
  have hdotA : rfind (sl ++ '.' :: el) '.' = (sl.length : Int) := by
    rw [rfind_append_of_nonneg (le_of_eq hdotc.symm) sl, hdotc, add_zero]
  have hslncons : '/' ∉ '.' :: el := by
    intro hm
    rcases List.mem_cons.mp hm with h | h
    · exact absurd h (by decide)
    · exact hsl h
  have hslA : rfind (sl ++ '.' :: el) '/' = rfind sl '/' := rfind_append_of_not_mem hslncons sl
  simp only [splitextRootLen]
  rw [hslA, hdotA, if_pos (rfind_lt_length '/' sl)]
  have hany : (List.range (((sl.length : Int)).toNat - (rfind sl '/' + 1).toNat)).any
      (fun j => (sl ++ '.' :: el).getD ((rfind sl '/' + 1).toNat + j) ' ' != '.') = true := by
    rw [List.any_eq_true]
    refine ⟨i - (rfind sl '/' + 1).toNat, List.mem_range.mpr (by omega), ?_⟩
    have hi : (rfind sl '/' + 1).toNat + (i - (rfind sl '/' + 1).toNat) = i := by omega
    rw [hi, List.getD_append _ _ _ _ h2]
    simpa [bne_iff_ne] using h3
  rw [if_pos hany]
  omega

/-- Every ingestion call, on every path, logs the cache-existence check of
the derived canonical key. -/
theorem objectExistsCheck_mem_ingest_log (w : World) (b p d : String) (tvn : Option String)
    (delim : String) (opts : Option (List (String × String))) :
    Ev.objectExistsCheck d (parquet_object_name p) ∈
      (ingest_file_to_datalake w b p d tvn delim opts).2.1 := by
  unfold ingest_file_to_datalake persistReloadPublish publishView
  by_cases hb : w.storage.bucketExists d <;>
    simp only [hb, Bool.false_eq_true, if_true, if_false] <;>
    (repeat' split) <;> simp

/-- C2: Deterministic canonical key derivation — for a source key of the
form `stem ++ "." ++ ext` (dot-free, slash-free extension; basename not all
dots), the derived canonical Parquet key is the stem with `.parquet`
appended, i.e. the source key with its extension replaced; and the
derivation is a pure function of the source key, so every ingestion call,
whatever the world or options, checks the cache at exactly that key. -/
theorem claim2_deterministic_canonical_key (stem e : String)
    (hdot : '.' ∉ e.data) (hsl : '/' ∉ e.data)
    (i : Nat) (h1 : rfind stem.data '/' < (i : Int)) (h2 : i < stem.data.length)
    (h3 : stem.data.getD i ' ' ≠ '.') :
    parquet_object_name (stem ++ "." ++ e) = stem ++ ".parquet" ∧
    (∀ w b d tvn delim opts,
      Ev.objectExistsCheck d (parquet_object_name (stem ++ "." ++ e)) ∈
        (ingest_file_to_datalake w b (stem ++ "." ++ e) d tvn delim opts).2.1) := by
  constructor
  · unfold parquet_object_name splitextFst
    have hdata : (stem ++ "." ++ e).data = stem.data ++ '.' :: e.data := by
      rw [String.data_append, String.data_append]
      have h0 : ".".data = ['.'] := rfl
      rw [h0, List.append_assoc, List.singleton_append]
    rw [hdata, splitextRootLen_append_ext stem.data e.data hdot hsl i h1 h2 h3]
    rw [List.take_left]
  · intro w b d tvn delim opts
    exact objectExistsCheck_mem_ingest_log w b (stem ++ "." ++ e) d tvn delim opts

theorem claim2_deterministic_canonical_key_witness :
    ('.' ∉ "csv".data) ∧ ('/' ∉ "csv".data) ∧
    (rfind "sales/jan".data '/' < ((6 : Nat) : Int)) ∧ (6 < "sales/jan".data.length) ∧
    ("sales/jan".data.getD 6 ' ' ≠ '.') ∧
    (parquet_object_name ("sales/jan" ++ "." ++ "csv") = "sales/jan" ++ ".parquet" ∧
    (∀ w b d tvn delim opts,
      Ev.objectExistsCheck d (parquet_object_name ("sales/jan" ++ "." ++ "csv")) ∈
        (ingest_file_to_datalake w b ("sales/jan" ++ "." ++ "csv") d tvn delim opts).2.1)) :=
  ⟨by decide, by decide, by decide, by decide, by decide,
   claim2_deterministic_canonical_key "sales/jan" "csv" (by decide) (by decide) 6
     (by decide) (by decide) (by decide)⟩

/-- Shape of every ingestion outcome: a success publishes exactly one view
under the derived name over the returned table (replacing any previous view
with that name), and a failure leaves the views untouched and never logs a
view registration. -/
theorem ingest_shape (w : World) (b p d : String) (tvn : Option String) (delim : String)
    (opts : Option (List (String × String))) :
    (∃ df, (ingest_file_to_datalake w b p d tvn delim opts).2.2 = Except.ok df ∧
      (ingest_file_to_datalake w b p d tvn delim opts).1.views =
        (tvn.getD (splitextFst p), df) ::
          w.views.filter (fun v => v.1 != tvn.getD (splitextFst p)) ∧
      Ev.createView (tvn.getD (splitextFst p)) ∈
        (ingest_file_to_datalake w b p d tvn delim opts).2.1) ∨
    (∃ e, (ingest_file_to_datalake w b p d tvn delim opts).2.2 = Except.error e ∧
      (ingest_file_to_datalake w b p d tvn delim opts).1.views = w.views ∧
      ∀ n, Ev.createView n ∉ (ingest_file_to_datalake w b p d tvn delim opts).2.1) := by
  unfold ingest_file_to_datalake persistReloadPublish publishView
  by_cases hb : w.storage.bucketExists d <;>
    simp only [hb, Bool.false_eq_true, if_true, if_false] <;>
    (repeat' split) <;>
    first
      | (left; exact ⟨_, rfl, rfl, by simp⟩)
      | (right; refine ⟨_, rfl, rfl, fun n => ?_⟩; simp [createView_not_mem_extractLog])

theorem filter_bne_self (nm : String) (l : List (String × Table)) :
    (l.filter (fun v => v.1 != nm)).filter (fun v => v.1 == nm) = [] := by
  induction l with
  | nil => rfl
  | cons a l ih =>
    by_cases h : a.1 = nm <;> simp [List.filter_cons, h, ih]

theorem filter_beq_of_ne (nm m : String) (hmn : m ≠ nm) (l : List (String × Table)) :
    (l.filter (fun v => v.1 != nm)).filter (fun v => v.1 == m) =
      l.filter (fun v => v.1 == m) := by
  induction l with
  | nil => rfl
  | cons a l ih =>
    by_cases h1 : a.1 = nm
    · have h2 : a.1 ≠ m := fun e => hmn (e.symm.trans h1)
      simp [List.filter_cons, h1, h2, ih, Ne.symm hmn]
    · by_cases h2 : a.1 = m <;> simp [List.filter_cons, h1, h2, ih, hmn]

/-- C6: View publication — every successful ingestion call registers a view
named by the caller-supplied name, or by the source key with its extension
stripped, over the returned table; the registration is logged, exactly one
live view exists under that name afterwards (last-write-wins), and views
under other names are untouched. -/
theorem claim6_view_publication (w : World) (b p d : String) (tvn : Option String)
    (delim : String) (opts : Option (List (String × String))) (df : Table)
    (h : (ingest_file_to_datalake w b p d tvn delim opts).2.2 = Except.ok df) :
    (ingest_file_to_datalake w b p d tvn delim opts).1.views.filter
        (fun v => v.1 == tvn.getD (splitextFst p)) = [(tvn.getD (splitextFst p), df)] ∧
    (∀ m, m ≠ tvn.getD (splitextFst p) →
      (ingest_file_to_datalake w b p d tvn delim opts).1.views.filter (fun v => v.1 == m) =
        w.views.filter (fun v => v.1 == m)) ∧
    Ev.createView (tvn.getD (splitextFst p)) ∈
      (ingest_file_to_datalake w b p d tvn delim opts).2.1 := by
  rcases ingest_shape w b p d tvn delim opts with ⟨df2, hok, hviews, hmem⟩ | ⟨e, herr, _, _⟩
  · rw [hok] at h
    injection h with h
    subst h
    refine ⟨?_, ?_, hmem⟩
    · rw [hviews]
      simp [List.filter_cons, filter_bne_self]
    · intro m hm
      rw [hviews]
      have : (tvn.getD (splitextFst p) == m) = false := by
        simp [Ne.symm hm]
      simp [List.filter_cons, this, filter_beq_of_ne _ m hm]
  · rw [herr] at h
    exact absurd h (by simp)

/-- C7: No partial publish on failure — whenever an ingestion call returns
an error, the error is surfaced to the caller as the call's result, the
views are exactly as before the call, and no view registration was even
logged. -/
theorem claim7_no_partial_publish (w : World) (b p d : String) (tvn : Option String)
    (delim : String) (opts : Option (List (String × String))) (e : Err)
    (h : (ingest_file_to_datalake w b p d tvn delim opts).2.2 = Except.error e) :
    (ingest_file_to_datalake w b p d tvn delim opts).1.views = w.views ∧
    (∀ n, Ev.createView n ∉ (ingest_file_to_datalake w b p d tvn delim opts).2.1) := by
  rcases ingest_shape w b p d tvn delim opts with ⟨df2, hok, _, _⟩ | ⟨e2, herr, hviews, hnv⟩
  · rw [hok] at h
    exact absurd h (by simp)
  · exact ⟨hviews, hnv⟩

/-- Concrete world for the C6 witness: a flat CSV source and a stale view
under the derived name that the call must replace. -/
def wDirect : World :=
  World.mk (Storage.mk ["raw"] [(("raw", "orders/2024.csv"), Payload.raw "a,b\n1,2\n3,4")])
    [("orders/2024", [["9", "9"]])]

theorem claim6_view_publication_witness :
    (ingest_file_to_datalake wDirect "raw" "orders/2024.csv" "stage" none "," none).2.2 =
      Except.ok [["1", "2"], ["3", "4"]] ∧
    ((ingest_file_to_datalake wDirect "raw" "orders/2024.csv" "stage" none "," none).1.views.filter
        (fun v => v.1 == (none : Option String).getD (splitextFst "orders/2024.csv")) =
      [((none : Option String).getD (splitextFst "orders/2024.csv"), [["1", "2"], ["3", "4"]])] ∧
    (∀ m, m ≠ (none : Option String).getD (splitextFst "orders/2024.csv") →
      (ingest_file_to_datalake wDirect "raw" "orders/2024.csv" "stage" none "," none).1.views.filter
          (fun v => v.1 == m) = wDirect.views.filter (fun v => v.1 == m)) ∧
    Ev.createView ((none : Option String).getD (splitextFst "orders/2024.csv")) ∈
      (ingest_file_to_datalake wDirect "raw" "orders/2024.csv" "stage" none "," none).2.1) :=
  ⟨by rfl, claim6_view_publication wDirect "raw" "orders/2024.csv" "stage" none "," none
    [["1", "2"], ["3", "4"]] (by rfl)⟩

/-- Concrete world for the C7 witness: nothing in storage, so the direct
CSV load fails. -/
def wEmpty : World := World.mk (Storage.mk [] []) []

theorem claim7_no_partial_publish_witness :
    (ingest_file_to_datalake wEmpty "b" "a.csv" "stage" none "," none).2.2 =
      Except.error (Err.engineLoadError "s3a://b/a.csv") ∧
    ((ingest_file_to_datalake wEmpty "b" "a.csv" "stage" none "," none).1.views =
      wEmpty.views ∧
    (∀ n, Ev.createView n ∉
      (ingest_file_to_datalake wEmpty "b" "a.csv" "stage" none "," none).2.1)) :=
  ⟨by rfl, claim7_no_partial_publish wEmpty "b" "a.csv" "stage" none "," none
    (Err.engineLoadError "s3a://b/a.csv") (by rfl)⟩

theorem extractZip_mem_extractLog (st : Storage) (o : MinioObject)
    (dObj : Option MinioObject) (etb : Bool) :
    Ev.extractZip o.bucket_name o.name ∈ (extract_and_upload_zip st o dObj etb).2.1 := by
  obtain ⟨l, hl⟩ := extractLog_head st o dObj etb
  rw [hl]
  simp

/-- C9: Classification by suffix is total and case-sensitive — on a cache
miss the expansion path is taken if and only if the source key ends in the
exact suffix `.zip`; any other key (including `.csv`, `.ZIP`, or no
extension) is loaded directly from its own prefix. -/
theorem claim9_suffix_classification (w : World) (b p d : String) (tvn : Option String)
    (delim : String) (opts : Option (List (String × String)))
    (h : w.storage.lookupObject d (parquet_object_name p) = none) :
    ((Ev.extractZip b p ∈ (ingest_file_to_datalake w b p d tvn delim opts).2.1) ↔
      strEndsWith p ".zip" = true) ∧
    (strEndsWith p ".zip" = false →
      Ev.readCsv (read_csv_to_dataframe_req b p delim "csv" opts) ∈
        (ingest_file_to_datalake w b p d tvn delim opts).2.1) := by
  unfold ingest_file_to_datalake persistReloadPublish publishView
  by_cases hb : w.storage.bucketExists d <;>
    by_cases hz : strEndsWith p ".zip" = true <;>
    simp only [hb, hz, Bool.false_eq_true, if_true, if_false, Storage.objectExists,
      lookupObject_makeBucket, h, Option.isSome_none, Bool.not_eq_true] <;>
    (repeat' split) <;>
    simp [hz, extractZip_mem_extractLog] <;>
    exact extractZip_mem_extractLog _ ⟨b, p⟩ none true

theorem claim9_suffix_classification_witness :
    (wEmpty.storage.lookupObject "stage" (parquet_object_name "batch.zip") = none ∧
      (((Ev.extractZip "raw" "batch.zip" ∈
          (ingest_file_to_datalake wEmpty "raw" "batch.zip" "stage" none "," none).2.1) ↔
        strEndsWith "batch.zip" ".zip" = true) ∧
      (strEndsWith "batch.zip" ".zip" = false →
        Ev.readCsv (read_csv_to_dataframe_req "raw" "batch.zip" "," "csv" none) ∈
          (ingest_file_to_datalake wEmpty "raw" "batch.zip" "stage" none "," none).2.1))) ∧
    (wEmpty.storage.lookupObject "stage" (parquet_object_name "batch.ZIP") = none ∧
      (((Ev.extractZip "raw" "batch.ZIP" ∈
          (ingest_file_to_datalake wEmpty "raw" "batch.ZIP" "stage" none "," none).2.1) ↔
        strEndsWith "batch.ZIP" ".zip" = true) ∧
      (strEndsWith "batch.ZIP" ".zip" = false →
        Ev.readCsv (read_csv_to_dataframe_req "raw" "batch.ZIP" "," "csv" none) ∈
          (ingest_file_to_datalake wEmpty "raw" "batch.ZIP" "stage" none "," none).2.1))) :=
  ⟨⟨rfl, claim9_suffix_classification wEmpty "raw" "batch.zip" "stage" none "," none rfl⟩,
   ⟨rfl, claim9_suffix_classification wEmpty "raw" "batch.ZIP" "stage" none "," none rfl⟩⟩

/-- The end-to-end scenario of the spec: bucket `raw` holds `batch.zip`
whose entry `rows.csv` has a header line and 3 data rows; `stage` is absent. -/
def wZipScenario : World :=
  World.mk (Storage.mk ["raw"]
    [(("raw", "batch.zip"), Payload.zipArchive [("rows.csv", "a,b\n1,2\n3,4\n5,6")])]) []

/-- C3 (evaluation at the failing input): ingesting `(raw, batch.zip, stage)`
does NOT produce the canonical artifact or the view. The expansion step
writes the entry under the key prefix `raw` (the bucket name), while the
loader reads `s3a://raw/batch` (the archive basename), so the load finds no
object and the call aborts with an engine load error: no
`stage/batch.parquet`, no view `batch`. -/
theorem claim3_end_to_end_zip_failure :
    (ingest_file_to_datalake wZipScenario "raw" "batch.zip" "stage" none "," none).2.2 =
      Except.error (Err.engineLoadError "s3a://raw/batch") ∧
    (ingest_file_to_datalake wZipScenario "raw" "batch.zip" "stage" none "," none).1.storage.lookupObject
      "stage" "batch.parquet" = none ∧
    (ingest_file_to_datalake wZipScenario "raw" "batch.zip" "stage" none "," none).1.storage.lookupObject
      "raw" "raw/rows.csv" = some (Payload.raw "a,b\n1,2\n3,4\n5,6") ∧
    (ingest_file_to_datalake wZipScenario "raw" "batch.zip" "stage" none "," none).1.views = [] :=
  ⟨rfl, rfl, rfl, rfl⟩

/-- A bucket `B` holding the archive `p.zip` with entries `a.csv` and
`sub/b.csv`. -/
def stExpand : Storage :=
  Storage.mk ["B"] [(("B", "p.zip"), Payload.zipArchive [("a.csv", "payload"), ("sub/b.csv", "qq")])]

/-- C4 (evaluation at the failing input): with `extract_to_bucket = true`
the expander writes the entries under the key prefix `B` — a folder named
after the bucket inside the bucket — not at the bucket root as the
function's own docstring states: keys `B/a.csv` and `B/sub/b.csv` exist
(with byte-identical contents), keys `a.csv` and `sub/b.csv` do not. -/
theorem claim4_expander_bucket_root_divergence :
    (extract_and_upload_zip stExpand (MinioObject.mk "B" "p.zip") none true).1.lookupObject
      "B" "B/a.csv" = some (Payload.raw "payload") ∧
    (extract_and_upload_zip stExpand (MinioObject.mk "B" "p.zip") none true).1.lookupObject
      "B" "a.csv" = none ∧
    (extract_and_upload_zip stExpand (MinioObject.mk "B" "p.zip") none true).1.lookupObject
      "B" "B/sub/b.csv" = some (Payload.raw "qq") ∧
    (extract_and_upload_zip stExpand (MinioObject.mk "B" "p.zip") none true).1.lookupObject
      "B" "sub/b.csv" = none :=
  ⟨rfl, rfl, rfl, rfl⟩

/-- A bucket with two archives under the empty prefix: `z1.zip` is not a
valid ZIP byte stream, `z2.zip` is valid. -/
def stBatch : Storage :=
  Storage.mk ["b"]
    [(("b", "z1.zip"), Payload.raw "junk"),
     (("b", "z2.zip"), Payload.zipArchive [("a.csv", "x")])]

/-- C5 counterexample: the batch expansion is NOT failure-isolating.
`z2.zip` is listed under the prefix and ends in `.zip`, yet after `z1.zip`
fails to parse the loop stops: the error propagates, `z2.zip` is never
expanded and its entry is never written. -/
theorem claim5_batch_isolation_counterexample :
    ( extract_and_upload_zip_by_prefix stBatch "b" "" false).2.2 =
      Except.error (Err.archiveUnreadable "b" "z1.zip") ∧
    ( extract_and_upload_zip_by_prefix stBatch "b" "" false).1.lookupObject "b" "z2/a.csv" =
      none ∧
    Ev.extractZip "b" "z2.zip" ∉ ( extract_and_upload_zip_by_prefix stBatch "b" "" false).2.1 ∧
    strEndsWith "z2.zip" ".zip" = true ∧
    "z2.zip" ∈ stBatch.listObjects "b" "" :=
  ⟨rfl, rfl, by decide, rfl, by decide⟩

/-- The archive keys on which `expand` was invoked, read off the event log. -/
def extractKeys (log : List Ev) : List String :=
  log.filterMap (fun e => match e with
    | Ev.extractZip _ k => some k
    | _ => none)

theorem extractKeys_uploadEntries (bucket dPfx : String) :
    ∀ (entries : List (String × String)) (st : Storage),
      extractKeys (uploadEntries st bucket dPfx entries).2.1 = [] := by
  intro entries
  induction entries with
  | nil => intro st; rfl
  | cons hd tl ih =>
    obtain ⟨k, dta⟩ := hd
    intro st
    simp [uploadEntries, extractKeys] at ih ⊢
    exact ih _

theorem extractKeys_extract (st : Storage) (o : MinioObject) (dObj : Option MinioObject)
    (etb : Bool) :
    extractKeys (extract_and_upload_zip st o dObj etb).2.1 = [o.name] := by
  unfold extract_and_upload_zip
  rcases hl : st.lookupObject o.bucket_name o.name with _ | pl
  · rfl
  · rcases pl with dta | entries | t
    · rfl
    · have h := extractKeys_uploadEntries o.bucket_name
        (if etb then o.bucket_name else
          match dObj with
          | some dd => dd.name
          | none => splitextFst o.name) entries st
      simp [extractKeys, List.filterMap_append] at h ⊢
      exact h
    · rfl

theorem extractZipsLoop_take (b : String) (etb : Bool) :
    ∀ (ks : List String) (st : Storage),
      ∃ n, n ≤ (ks.filter (fun k => strEndsWith k ".zip")).length ∧
        extractKeys (extractZipsLoop b etb ks st).2.1 =
          (ks.filter (fun k => strEndsWith k ".zip")).take n ∧
        ((extractZipsLoop b etb ks st).2.2 = Except.ok () →
          extractKeys (extractZipsLoop b etb ks st).2.1 =
            ks.filter (fun k => strEndsWith k ".zip")) := by
  intro ks
  induction ks with
  | nil => intro st; exact ⟨0, by simp, rfl, fun _ => rfl⟩
  | cons k ks ih =>
    intro st
    by_cases hz : strEndsWith k ".zip" = true
    · simp only [extractZipsLoop, hz, if_true, List.filter_cons_of_pos]
      rcases hx : (extract_and_upload_zip st (MinioObject.mk b k) none etb).2.2 with e | objs
      · refine ⟨1, by simp, ?_, ?_⟩
        · simp [hx, extractKeys_extract]
        · simp [hx]
      · obtain ⟨n, hn, hkeys, hok⟩ :=
          ih (extract_and_upload_zip st (MinioObject.mk b k) none etb).1
        refine ⟨n + 1, by simpa using hn, ?_, ?_⟩
        · simp [hx, extractKeys, List.filterMap_append] at hkeys ⊢
          have he := extractKeys_extract st (MinioObject.mk b k) none etb
          simp [extractKeys] at he
          rw [he]
          simp [hkeys]
        · intro hres
          simp [hx] at hres
          have := hok hres
          simp [hx, extractKeys, List.filterMap_append] at this ⊢
          have he := extractKeys_extract st (MinioObject.mk b k) none etb
          simp [extractKeys] at he
          rw [he]
          simp [this]
    · have hz' : strEndsWith k ".zip" = false := by rwa [Bool.not_eq_true] at hz
      simp only [extractZipsLoop, hz', Bool.false_eq_true, if_false]
      have hfil : List.filter (fun k2 => strEndsWith k2 ".zip") (k :: ks) =
          List.filter (fun k2 => strEndsWith k2 ".zip") ks := by
        simp [List.filter_cons, hz']
      rw [hfil]
      exact ih st

/-- C5 (amended): `expand_by_prefix` lists the objects under the prefix and
invokes `expand` exactly on listed keys ending in `.zip`, in listing order;
the expanded archives always form a prefix of that filtered listing, and
only when the whole batch succeeds were all of them expanded — a failure
halts the loop and the remaining archives are not processed (no per-archive
isolation). -/
theorem claim5_batch_best_effort_amended (st : Storage) (b pf : String) (etb : Bool) :
    ∃ n, n ≤ ((st.listObjects b pf).filter (fun k => strEndsWith k ".zip")).length ∧
      extractKeys ( extract_and_upload_zip_by_prefix st b pf etb).2.1 =
        ((st.listObjects b pf).filter (fun k => strEndsWith k ".zip")).take n ∧
      (( extract_and_upload_zip_by_prefix st b pf etb).2.2 = Except.ok () →
        extractKeys ( extract_and_upload_zip_by_prefix st b pf etb).2.1 =
          (st.listObjects b pf).filter (fun k => strEndsWith k ".zip")) := by
  unfold extract_and_upload_zip_by_prefix
  exact extractZipsLoop_take b etb (st.listObjects b pf) st

theorem claim5_batch_best_effort_amended_witness :
    ∃ n, n ≤ ((stBatch.listObjects "b" "").filter (fun k => strEndsWith k ".zip")).length ∧
      extractKeys ( extract_and_upload_zip_by_prefix stBatch "b" "" false).2.1 =
        ((stBatch.listObjects "b" "").filter (fun k => strEndsWith k ".zip")).take n ∧
      (( extract_and_upload_zip_by_prefix stBatch "b" "" false).2.2 = Except.ok () →
        extractKeys ( extract_and_upload_zip_by_prefix stBatch "b" "" false).2.1 =
          (stBatch.listObjects "b" "").filter (fun k => strEndsWith k ".zip")) :=
  claim5_batch_best_effort_amended stBatch "b" "" false
